import Mathlib

/-!
Shallow embedding of the caching, streaming completion client
(`pkg/openai/client.go`) of the gptscript repository, together with proofs
about the behaviour its specification describes.

Conventions of the embedding:
* Go strings are Lean `String`s; `types.CompletionMessageRoleType` is a Go
  string type, so roles are plain strings here.
* Go pointer fields (`*int`, `*bool`, `*float32`, `*CompletionToolCall`)
  become `Option` fields; a nil pointer is `none`.
* `float32` values are only ever created as the zero value or passed through
  unchanged, so they are idealised as `Rat`.
* Tool-call indices are `Option Nat`; the source type is `*int`, but the
  source indexes a slice with the value directly and is undefined for
  negative indices, so the modelled domain is the non-negative one.
* Stateful code (the status channel, the cache store, the network stream) is
  modelled by explicit state passing: the channel becomes an emitted list of
  statuses, the store a value threaded through, and the stream an input that
  is either an open error or a list of received chunks with an optional
  mid-stream error.
-/

/-- Role string of system messages (`types.CompletionMessageRoleTypeSystem`). -/
def roleSystem : String := "system"

/-- Role string of user messages (`types.CompletionMessageRoleTypeUser`). -/
def roleUser : String := "user"

/-- Role string of assistant messages (`types.CompletionMessageRoleTypeAssistant`). -/
def roleAssistant : String := "assistant"

/-- Content-part type tag for text (`openai.ChatMessagePartTypeText`). -/
def partTypeText : String := "text"

/-- Function name and arguments of a tool call (`types.CompletionFunctionCall`). -/
structure CompletionFunctionCall where
  name : String
  arguments : String
deriving DecidableEq, Repr

/-- A tool call of the abstract model (`types.CompletionToolCall`):
index (source type `*int`), id, and the function payload. -/
structure CompletionToolCall where
  index : Option Nat
  id : String
  function : CompletionFunctionCall
deriving DecidableEq, Repr

/-- One part of a message's content (`types.ContentPart`): a text field and an
optional tool-call reference, exactly as the Go struct holds both fields. -/
structure ContentPart where
  text : String
  toolCall : Option CompletionToolCall
deriving DecidableEq, Repr

/-- An abstract completion message (`types.CompletionMessage`). -/
structure CompletionMessage where
  role : String
  content : List ContentPart
  toolCall : Option CompletionToolCall
deriving DecidableEq, Repr

/-- The helper `types.Text`: a single text content part. -/
def Text (s : String) : List ContentPart :=
  [{ text := s, toolCall := none }]

/-- Function definition carried by an abstract tool (`types.CompletionTool`'s
function). The parameter schema is an opaque payload, idealised as a string. -/
structure CompletionFunctionDefinition where
  name : String
  description : String
  parameters : String
deriving DecidableEq, Repr

/-- An abstract tool definition of a completion request. -/
structure CompletionTool where
  function : CompletionFunctionDefinition
deriving DecidableEq, Repr

/-- The abstract, provider-agnostic request (`types.CompletionRequest`), with
the fields `Call` and `toMessages` consume. -/
structure CompletionRequest where
  model : String
  internalSystemPrompt : Option Bool
  tools : List CompletionTool
  messages : List CompletionMessage
  maxTokens : Int
  temperature : Option Rat
  jsonResponse : Bool
  cache : Option Bool
deriving DecidableEq, Repr

/-- Wire function call (`openai.FunctionCall`). -/
structure FunctionCall where
  name : String
  arguments : String
deriving DecidableEq, Repr

/-- Wire tool call (`openai.ToolCall`), also the shape of tool-call fragments
inside stream deltas. -/
structure ToolCall where
  index : Option Nat
  id : String
  type : String
  function : FunctionCall
deriving DecidableEq, Repr

/-- Wire multi-content part (`openai.ChatMessagePart`). -/
structure ChatMessagePart where
  type : String
  text : String
deriving DecidableEq, Repr

/-- Wire chat message (`openai.ChatCompletionMessage`) with the fields the
client populates. -/
structure ChatCompletionMessage where
  role : String
  content : String
  multiContent : List ChatMessagePart
  name : String
  toolCallID : String
  toolCalls : List ToolCall
deriving DecidableEq, Repr

/-- Wire function definition of a tool (`openai.FunctionDefinition`). -/
structure FunctionDefinition where
  name : String
  description : String
  parameters : String
deriving DecidableEq, Repr

/-- Wire tool (`openai.Tool`). -/
structure WireTool where
  type : String
  function : FunctionDefinition
deriving DecidableEq, Repr

/-- Wire chat completion request (`openai.ChatCompletionRequest`) with the
fields the client sets. -/
structure ChatCompletionRequest where
  model : String
  messages : List ChatCompletionMessage
  maxTokens : Int
  temperature : Option Rat
  responseFormat : Option String
  tools : List WireTool
  user : String
  seed : Option Int
  stream : Bool
deriving DecidableEq, Repr

/-- Delta of one streamed choice (`openai.ChatCompletionStreamChoiceDelta`). -/
structure StreamDelta where
  content : String
  role : String
  toolCalls : List ToolCall
deriving DecidableEq, Repr

/-- One streamed choice (`openai.ChatCompletionStreamChoice`). -/
structure StreamChoice where
  delta : StreamDelta
deriving DecidableEq, Repr

/-- One raw streamed chunk (`openai.ChatCompletionStreamResponse`). -/
structure ChatCompletionStreamResponse where
  choices : List StreamChoice
deriving DecidableEq, Repr

/-!
Model of the `pkg/hash` collaborator and of `pkg/system`'s prompt helpers.
Neither package is part of the sources; both are modelled from the spec's
contracts for them.
-/

/-- Hexadecimal digit of a value below 16. -/
def hexDigit (n : Nat) : Char :=
  if n < 10 then Char.ofNat (48 + n) else Char.ofNat (87 + n)

/-- Fixed-width hexadecimal rendering of a natural number. -/
def toHexFixed : Nat → Nat → String
  | 0, _ => ""
  | w + 1, n => toHexFixed w (n / 16) ++ String.singleton (hexDigit (n % 16))

/-- A simple deterministic string hash folded into a 64-bit accumulator. -/
def strHashStep (acc : Nat) (s : String) : Nat :=
  s.data.foldl (fun a c => (a * 131 + c.toNat + 7) % (2 ^ 64)) ((acc * 33 + 1) % (2 ^ 64))

/-- Modelled from the spec: the content-hash primitive `hash.ID(parts...)`,
a short fixed-length id string over its parts (`pkg/hash` is not among the
sources). Modelled as sixteen hex characters of a deterministic fold. -/
def hashID (parts : List String) : String :=
  toHexFixed 16 (parts.foldl strHashStep 5381)

/-- Serialisation of an optional value. -/
def optRepr (f : α → String) : Option α → String
  | none => "_"
  | some a => "!" ++ f a

/-- Serialisation of a list of values. -/
def listRepr (f : α → String) (l : List α) : String :=
  "[" ++ String.intercalate "," (l.map f) ++ "]"

/-- Serialisation of a wire tool call. -/
def toolCallRepr (t : ToolCall) : String :=
  "tc(" ++ optRepr toString t.index ++ ";" ++ t.id ++ ";" ++ t.type ++ ";"
    ++ t.function.name ++ ";" ++ t.function.arguments ++ ")"

/-- Serialisation of a wire multi-content part. -/
def chatPartRepr (p : ChatMessagePart) : String :=
  "p(" ++ p.type ++ ";" ++ p.text ++ ")"

/-- Serialisation of a wire chat message. -/
def chatMessageRepr (m : ChatCompletionMessage) : String :=
  "m(" ++ m.role ++ ";" ++ m.content ++ ";" ++ listRepr chatPartRepr m.multiContent ++ ";"
    ++ m.name ++ ";" ++ m.toolCallID ++ ";" ++ listRepr toolCallRepr m.toolCalls ++ ")"

/-- Serialisation of a wire tool definition. -/
def wireToolRepr (t : WireTool) : String :=
  "t(" ++ t.type ++ ";" ++ t.function.name ++ ";" ++ t.function.description ++ ";"
    ++ t.function.parameters ++ ")"

/-- Serialisation of a rational temperature value. -/
def ratRepr (q : Rat) : String :=
  toString q.num ++ "/" ++ toString q.den

/-- Serialisation of a full wire request, covering every field the client
sets; two requests with a different model, messages, tools or sampling
parameters serialise differently. -/
def reqRepr (r : ChatCompletionRequest) : String :=
  "req(" ++ r.model ++ ";" ++ listRepr chatMessageRepr r.messages ++ ";"
    ++ toString r.maxTokens ++ ";" ++ optRepr ratRepr r.temperature ++ ";"
    ++ optRepr id r.responseFormat ++ ";" ++ listRepr wireToolRepr r.tools ++ ";"
    ++ r.user ++ ";" ++ optRepr toString r.seed ++ ";"
    ++ (if r.stream then "1" else "0") ++ ")"

/-- Modelled from the spec: `hash.Encode` over the map holding the cache-key
base and the wire request — a stable content hash of its input. Modelled as
an injective serialisation (a collision-free idealisation of the hash). -/
def hashEncode (base : String) (r : ChatCompletionRequest) : String :=
  "base:" ++ base ++ "|request:" ++ reqRepr r

/-- Modelled from the spec: `hash.Seed(value) → integer` (`pkg/hash` is not
among the sources), a deterministic integer hash of the request. -/
def hashSeedFn (r : ChatCompletionRequest) : Int :=
  Int.ofNat (strHashStep 77 (reqRepr r))

/-- Modelled from the spec: the default internal system prompt
(`system.InternalSystemPrompt`; `pkg/system` is not among the sources).
Its concrete wording is immaterial to the claims. -/
def InternalSystemPrompt : String :=
  "You are a task oriented system. Be brief."

/-- Modelled from the spec: `system.IsDefaultPrompt` recognises a default
prompt and yields the prompt back (`pkg/system` is not among the sources);
modelled as recognising exactly the internal system prompt, returned
unchanged, so the substitution in `toMessages` never alters the text. -/
def IsDefaultPrompt (s : String) : Option String :=
  if s = InternalSystemPrompt then some s else none

/-- The content rewrite `toMessages` applies through `IsDefaultPrompt`. -/
def applyDefaultPromptRemap (s : String) : String :=
  match IsDefaultPrompt s with
  | some p => p
  | none => s

/-!
The request compiler `toMessages` and its helpers.
-/

/-- Text of a message's first content part, as read by the system-prompt
merge (`message.Content[0].Text`; the source indexes position 0 directly and
is undefined on an empty content list, modelled as the empty string). -/
def headText (m : CompletionMessage) : String :=
  (m.content.headD { text := "", toolCall := none }).text

/-- The first phase of `toMessages` (lines 241–254): walk the request's
messages, collecting into merged system prompts every system message whose
successor is a system or user message, and demoting to user role every
system message that is last or whose successor has another role. -/
def systemSplit : List CompletionMessage → List String × List CompletionMessage
  | [] => ([], [])
  | m :: rest =>
    if m.role = roleSystem then
      match rest with
      | [] => ([], [{ m with role := roleUser }])
      | next :: _ =>
        if next.role ≠ roleSystem ∧ next.role ≠ roleUser then
          let p := systemSplit rest
          (p.1, { m with role := roleUser } :: p.2)
        else
          let p := systemSplit rest
          (headText m :: p.1, p.2)
    else
      let p := systemSplit rest
      (p.1, m :: p.2)

/-- `toToolCall`: conversion of an abstract tool call to the wire form. -/
def toToolCall (call : CompletionToolCall) : ToolCall :=
  { index := call.index
    id := call.id
    type := "function"
    function := { name := call.function.name, arguments := call.function.arguments } }

/-- The body of the content loop of `toMessages` (lines 274–284): a tool
call is appended to the tool-call list, a non-empty text is appended to the
multi-content list. -/
def buildStep (cm : ChatCompletionMessage) (content : ContentPart) : ChatCompletionMessage :=
  let cm :=
    match content.toolCall with
    | some tc => { cm with toolCalls := cm.toolCalls ++ [toToolCall tc] }
    | none => cm
  if content.text ≠ "" then
    { cm with multiContent := cm.multiContent ++ [{ type := partTypeText, text := content.text }] }
  else cm

/-- The per-message build of `toMessages` (lines 263–284): the base wire
message with tool-call linkage, then every content part folded in through
`buildStep`. -/
def buildChatMessage (message : CompletionMessage) : ChatCompletionMessage :=
  let base : ChatCompletionMessage :=
    { role := message.role, content := "", multiContent := [], name := "",
      toolCallID := "", toolCalls := [] }
  let base :=
    match message.toolCall with
    | some tc => { base with toolCallID := tc.id, name := tc.function.name }
    | none => base
  message.content.foldl buildStep base

/-- The tail of the per-message loop of `toMessages` (lines 286–298): a
message collapsing to a single text part is dropped when the text is one of
the sentinels `"."` / `"\x7b\x7d"`, and otherwise sent through the scalar
content field (with the default-prompt substitution applied); producing
`none` omits the message from the compiled list. -/
def compileMsg (message : CompletionMessage) : Option ChatCompletionMessage :=
  let cm := buildChatMessage message
  match cm.multiContent with
  | [p] =>
    if p.type = partTypeText then
      if p.text = "." ∨ p.text = "{}" then none
      else some { cm with content := applyDefaultPromptRemap p.text, multiContent := [] }
    else some cm
  | _ => some cm

/-- `toMessages` (lines 231–302): the default internal system prompt (unless
disabled), the system split, the merged leading system message inserted when
any prompt was collected, then the per-message compilation. The source's
error return is always nil, so the embedding returns the list directly. -/
def toMessages (request : CompletionRequest) : List ChatCompletionMessage :=
  let sys0 := if request.internalSystemPrompt.getD true then [InternalSystemPrompt] else []
  let split := systemSplit request.messages
  let systemPrompts := sys0 ++ split.1
  let msgs :=
    if systemPrompts.length > 0 then
      ({ role := roleSystem,
         content := Text (String.intercalate "\n" systemPrompts),
         toolCall := none } : CompletionMessage) :: split.2
    else split.2
  msgs.filterMap compileMsg

/-!
The stream assembler `appendMessage` and its helpers.
-/

/-- `override` (lines 454–459): a non-empty right value wins. -/
def override (left right : String) : String :=
  if right ≠ "" then right else left

/-- An empty placeholder content part created by the gap-filling loop: a
tool call whose only populated field is its position. -/
def placeholderPart (pos : Nat) : ContentPart :=
  { text := ""
    toolCall := some { index := some pos, id := "", function := { name := "", arguments := "" } } }

/-- The gap-filling loop of `appendMessage` (lines 410–416): while the
content list does not reach the target index, append an empty tool-call
placeholder recording its position. -/
def growTo (parts : List ContentPart) (idx : Nat) : List ContentPart :=
  if parts.length < idx + 1 then growTo (parts ++ [placeholderPart parts.length]) idx
  else parts
termination_by idx + 1 - parts.length
decreasing_by simp_all; omega

/-- Application of one tool-call fragment of a delta (lines 405–430): resolve
the target index (explicit index if present, else 0), grow the list until the
index exists, then merge the fragment into the slot — the id overridden only
by a non-empty fragment id, name and arguments appended. -/
def applyToolFragment (msg : CompletionMessage) (tool : ToolCall) : CompletionMessage :=
  let idx := tool.index.getD 0
  let grown := growTo msg.content idx
  let tc0 := grown.getD idx { text := "", toolCall := none }
  let tcall := tc0.toolCall.getD { index := none, id := "", function := { name := "", arguments := "" } }
  let tcall :=
    { tcall with
      index := match tool.index with
               | some i => some i
               | none => tcall.index
      id := override tcall.id tool.id
      function :=
        { name := tcall.function.name ++ tool.function.name
          arguments := tcall.function.arguments ++ tool.function.arguments } }
  { msg with content := grown.set idx { tc0 with toolCall := some tcall } }

/-- Index of the first content part that carries no tool call. -/
def firstTextSlot (parts : List ContentPart) : Option Nat :=
  parts.findIdx? (fun p => p.toolCall.isNone)

/-- Application of delta text (lines 432–449): append the text to the first
content part that is not a tool call — the part is rebuilt with only its text
field — or append a fresh text part when none exists. -/
def applyText (msg : CompletionMessage) (t : String) : CompletionMessage :=
  match firstTextSlot msg.content with
  | some i =>
    let old := msg.content.getD i { text := "", toolCall := none }
    { msg with content := msg.content.set i { text := old.text ++ t, toolCall := none } }
  | none => { msg with content := msg.content ++ [{ text := t, toolCall := none }] }

/-- `appendMessage` (lines 397–452): fold one raw chunk into the accumulated
message — ignore choice-less chunks, override the role with a non-empty delta
role, apply every tool-call fragment, then apply the delta text if any. -/
def appendMessage (msg : CompletionMessage) (response : ChatCompletionStreamResponse) : CompletionMessage :=
  match response.choices.head? with
  | none => msg
  | some choice =>
    let delta := choice.delta
    let msg := { msg with role := override msg.role delta.role }
    let msg := delta.toolCalls.foldl applyToolFragment msg
    if delta.content ≠ "" then applyText msg delta.content else msg

/-- The empty accumulated message the fold starts from. -/
def emptyMessage : CompletionMessage :=
  { role := "", content := [], toolCall := none }

/-- Folding a chunk sequence into one message (the loop of `Call`,
lines 375–378). -/
def foldChunks (chunks : List ChatCompletionStreamResponse) : CompletionMessage :=
  chunks.foldl appendMessage emptyMessage

/-- The tool-call id backfill of `Call` (lines 380–385) on one content
part: a tool call whose id is still empty receives the fixed tag `call_`
followed by the first eight characters of the content hash of its function
name and arguments. -/
def backfillPart (part : ContentPart) : ContentPart :=
  match part.toolCall with
  | some tc =>
    if tc.id = "" then
      { part with
        toolCall := some { tc with
          id := "call_" ++ (hashID [tc.function.name, tc.function.arguments]).take 8 } }
    else part
  | none => part

/-- The backfill applied to the whole assembled message. -/
def backfillIds (m : CompletionMessage) : CompletionMessage :=
  { m with content := m.content.map backfillPart }

/-!
The orchestrator: client state, cache store, statuses, `fromCache`, `store`,
`call` and `Call`.
-/

/-- The client state (`Client`, lines 35–43) without the transport handle. -/
structure Client where
  defaultModel : String
  invalidAuth : Bool
  cacheKeyBase : String
  setSeed : Bool
  user : String
deriving DecidableEq, Repr

/-- The request context, carrying the context-level cache disable flag read
through `cache.IsNoCache`. -/
structure Ctx where
  noCache : Bool
deriving DecidableEq, Repr

/-- The cache store collaborator: stored entries plus fault switches for the
`Get` and `Store` contract failures. The gzip and JSON round trip of
`store`/`fromCache` is modelled as the identity, so entries hold the chunk
sequences themselves. -/
structure CacheStore where
  entries : List (String × List ChatCompletionStreamResponse)
  getErr : Option String
  storeErr : Option String
deriving DecidableEq, Repr

/-- Modelled from the spec: `types.CompletionStatus` as the tagged event the
spec describes — Submitted with the compiled wire request, Partial with the
in-progress message, Final with chunks, final message and cached flag — all
correlated by the per-call transaction id (`pkg/types` is not among the
sources). The `progress` constructor is the spec's Partial event. -/
inductive CompletionStatus where
  | submitted (completionID : String) (request : ChatCompletionRequest)
  | progress (completionID : String) (message : CompletionMessage)
  | final (completionID : String) (chunks : List ChatCompletionStreamResponse)
      (response : CompletionMessage) (cached : Bool)
deriving DecidableEq, Repr

/-- `Client.cacheKey` (lines 171–176): the content hash of the cache-key
base together with the full wire request. -/
def Client.cacheKey (c : Client) (request : ChatCompletionRequest) : String :=
  hashEncode c.cacheKeyBase request

/-- The message normalisation inside `Client.seed` (lines 179–193): every
message loses its message-level tool-call id and the ids nested inside its
tool calls; nothing else changes. -/
def stripToolIds (r : ChatCompletionRequest) : ChatCompletionRequest :=
  { r with
    messages := r.messages.map fun m =>
      { m with
        toolCallID := ""
        toolCalls := m.toolCalls.map fun t => { t with id := "" } } }

/-- `Client.seed` (lines 178–195): the seed hash over the id-stripped copy
of the request. -/
def Client.seed (_c : Client) (request : ChatCompletionRequest) : Int :=
  hashSeedFn (stripToolIds request)

/-- `Client.fromCache` (lines 197–217): no lookup when the context disables
caching or the request's cache flag is explicitly false; a `Get` error is
surfaced; otherwise the stored chunk sequence for the key, if any. -/
def Client.fromCache (c : Client) (ctx : Ctx) (messageRequest : CompletionRequest)
    (cs : CacheStore) (request : ChatCompletionRequest) :
    Except String (Option (List ChatCompletionStreamResponse)) :=
  if ctx.noCache then .ok none
  else if messageRequest.cache = some false then .ok none
  else
    match cs.getErr with
    | some e => .error e
    | none => .ok (cs.entries.lookup (c.cacheKey request))

/-- `Client.store` (lines 461–475): nothing is written when the context
disables caching; otherwise the chunk sequence is stored under the key, a
`Store` contract failure surfacing as an error. -/
def Client.store (_c : Client) (ctx : Ctx) (cs : CacheStore) (key : String)
    (responses : List ChatCompletionStreamResponse) : Except String CacheStore :=
  if ctx.noCache then .ok cs
  else
    match cs.storeErr with
    | some e => .error e
    | none => .ok { cs with entries := (key, responses) :: cs.entries }

/-- The per-chunk Partial statuses of the receive loop (lines 497–515): each
received chunk is folded into the accumulated message and emitted as a
Partial status. -/
def streamStatuses (id : String) (acc : CompletionMessage) :
    List ChatCompletionStreamResponse → List CompletionStatus
  | [] => []
  | ch :: rest =>
    let acc' := appendMessage acc ch
    .progress id acc' :: streamStatuses id acc' rest

/-- The outcome of the live stream, standing for the transport collaborator:
either the stream fails to open, or a list of received chunks followed by
end-of-stream (`none`) or a mid-stream error (`some`). -/
abbrev StreamOutcome := Except String (List ChatCompletionStreamResponse × Option String)

/-- `Client.call` (lines 477–516): compute the cache key, emit the waiting
placeholder Partial, then consume the stream — every received chunk emits a
Partial of the message folded so far; on end-of-stream the chunk sequence is
stored; a mid-stream error fails the call with the received chunks discarded. -/
def Client.call (c : Client) (ctx : Ctx) (cs : CacheStore)
    (request : ChatCompletionRequest) (transactionID : String) (sr : StreamOutcome) :
    List CompletionStatus × Except String (List ChatCompletionStreamResponse × CacheStore) :=
  let key := c.cacheKey request
  let waiting : CompletionStatus :=
    .progress transactionID
      { role := roleAssistant, content := Text "Waiting for model response...", toolCall := none }
  match sr with
  | .error e => ([waiting], .error e)
  | .ok (chunks, merr) =>
    let sts := waiting :: streamStatuses transactionID emptyMessage chunks
    match merr with
    | some e => (sts, .error e)
    | none =>
      match c.store ctx cs key chunks with
      | .error e => (sts, .error e)
      | .ok cs' => (sts, .ok (chunks, cs'))

/-- The model defaulting at the top of `Call` (lines 309–311). -/
def defaultedRequest (c : Client) (mr : CompletionRequest) : CompletionRequest :=
  if mr.model = "" then { mr with model := c.defaultModel } else mr

/-- Conversion of an abstract tool definition to the wire tool list entry
(lines 340–351). -/
def toWireTool (t : CompletionTool) : WireTool :=
  { type := "function"
    function :=
      { name := t.function.name
        description := t.function.description
        parameters := t.function.parameters } }

/-- The wire request compiled by `Call` (lines 321–351), before the seed is
set: defaulted model, compiled messages, max tokens, the explicit zero
temperature when unset, the JSON response format when requested, and the
wire tool list. -/
def compiledRequest (c : Client) (mr : CompletionRequest) : ChatCompletionRequest :=
  let mr' := defaultedRequest c mr
  { model := mr'.model
    messages := toMessages mr'
    maxTokens := mr'.maxTokens
    temperature := some (mr'.temperature.getD 0)
    responseFormat := if mr'.jsonResponse then some "json_object" else none
    tools := mr'.tools.map toWireTool
    user := c.user
    seed := none
    stream := false }

/-- The compiled request after the seed assignment of lines 360–362. -/
def requestWithSeed (c : Client) (mr : CompletionRequest) : ChatCompletionRequest :=
  let r := compiledRequest c mr
  if c.setSeed then { r with seed := some (c.seed r) } else r

instance {ε α : Type} [DecidableEq ε] [DecidableEq α] : DecidableEq (Except ε α) := fun x y =>
  match x, y with
  | .error a, .error b =>
    match decEq a b with
    | isTrue h => isTrue (h ▸ rfl)
    | isFalse h => isFalse fun hh => h (by cases hh; rfl)
  | .ok a, .ok b =>
    match decEq a b with
    | isTrue h => isTrue (h ▸ rfl)
    | isFalse h => isFalse fun hh => h (by cases hh; rfl)
  | .error _, .ok _ => isFalse fun hh => Except.noConfusion hh
  | .ok _, .error _ => isFalse fun hh => Except.noConfusion hh

/-- The result of one `Call`: the statuses pushed to the sink in order, the
outcome, the cache store after the call, and how many times the transport
was invoked. -/
structure CallResult where
  statuses : List CompletionStatus
  outcome : Except String CompletionMessage
  cacheOut : CacheStore
  transportCalls : Nat
deriving DecidableEq, Repr

/-- Error message of the missing-credential check (line 137). -/
def authErrMsg : String :=
  "OPENAI_API_KEY is not set. Please set the OPENAI_API_KEY environment variable"

/-- Error message of the empty compiled message list (line 318). -/
def noMessagesErrMsg : String :=
  "invalid request, no messages to send to OpenAI"

/-- `Client.Call` (lines 304–395): auth check, request compilation, the
Submitted status, the optional seed, the cache lookup, the replay or live
path, the fold of the chunk sequence, the tool-call id backfill, and the
Final status. The transaction id is passed in for the process-wide atomic
counter. -/
def Client.Call (c : Client) (ctx : Ctx) (mr : CompletionRequest) (cs : CacheStore)
    (id : String) (sr : StreamOutcome) : CallResult :=
  if c.invalidAuth then
    { statuses := [], outcome := .error authErrMsg, cacheOut := cs, transportCalls := 0 }
  else
    let req0 := compiledRequest c mr
    if req0.messages.isEmpty then
      { statuses := [], outcome := .error noMessagesErrMsg, cacheOut := cs, transportCalls := 0 }
    else
      let submitted := CompletionStatus.submitted id req0
      let reqS := requestWithSeed c mr
      match c.fromCache ctx (defaultedRequest c mr) cs reqS with
      | .error e =>
        { statuses := [submitted], outcome := .error e, cacheOut := cs, transportCalls := 0 }
      | .ok (some chunks) =>
        let result := backfillIds (foldChunks chunks)
        { statuses := [submitted, .final id chunks result true]
          outcome := .ok result, cacheOut := cs, transportCalls := 0 }
      | .ok none =>
        match c.call ctx cs reqS id sr with
        | (sts, .error e) =>
          { statuses := submitted :: sts, outcome := .error e, cacheOut := cs, transportCalls := 1 }
        | (sts, .ok (chunks, cs')) =>
          let result := backfillIds (foldChunks chunks)
          { statuses := submitted :: (sts ++ [.final id chunks result false])
            outcome := .ok result, cacheOut := cs', transportCalls := 1 }

/-!
Concrete values used by examples, witnesses and counterexamples.
-/

/-- A wire tool call with the given index, id, name and arguments. -/
def mkTc (i : Option Nat) (theId nm args : String) : ToolCall :=
  { index := i, id := theId, type := "function",
    function := { name := nm, arguments := args } }

/-- A chunk carrying one choice with the given delta. -/
def chunkOf (d : StreamDelta) : ChatCompletionStreamResponse :=
  { choices := [{ delta := d }] }

/-- A chunk carrying assistant text. -/
def chunkText (t : String) : ChatCompletionStreamResponse :=
  chunkOf { content := t, role := roleAssistant, toolCalls := [] }

/-- A chunk carrying one tool-call fragment. -/
def chunkTool (i : Nat) (theId nm args : String) : ChatCompletionStreamResponse :=
  chunkOf { content := "", role := "", toolCalls := [mkTc (some i) theId nm args] }

/-- A plain text message of the abstract model. -/
def mkMsg (role t : String) : CompletionMessage :=
  { role := role, content := Text t, toolCall := none }

/-- A client with valid auth and seed derivation enabled. -/
def clEx : Client :=
  { defaultModel := "gpt-4-turbo-preview", invalidAuth := false, cacheKeyBase := "kb",
    setSeed := true, user := "u" }

/-- A context with caching enabled. -/
def ctxEx : Ctx := { noCache := false }

/-- An empty, fault-free cache store. -/
def csEx : CacheStore := { entries := [], getErr := none, storeErr := none }

/-- The spec's trailing-system-demotion example request:
`[user:"hi", system:"be terse"]`. -/
def exReqC1 : CompletionRequest :=
  { model := "m", internalSystemPrompt := none, tools := [],
    messages := [mkMsg roleUser "hi", mkMsg roleSystem "be terse"],
    maxTokens := 0, temperature := none, jsonResponse := false, cache := none }

/-- A compiled wire message with scalar text content only. -/
def scalarMsg (role t : String) : ChatCompletionMessage :=
  { role := role, content := t, multiContent := [], name := "", toolCallID := "",
    toolCalls := [] }

/-- The spec's sentinel-collapse example request: a user message whose sole
content is the placeholder text, next to an ordinary user message. -/
def exReqC9 : CompletionRequest :=
  { model := "m", internalSystemPrompt := some false, tools := [],
    messages := [mkMsg roleUser "hi", mkMsg roleUser "{}"],
    maxTokens := 0, temperature := none, jsonResponse := false, cache := none }

/-- A plain live request used by orchestrator witnesses. -/
def mrEx : CompletionRequest :=
  { model := "", internalSystemPrompt := some false, tools := [],
    messages := [mkMsg roleUser "2+2?"],
    maxTokens := 0, temperature := none, jsonResponse := false, cache := none }

/-!
Spec-side reference definitions (written from the specification's words, to
be compared with the source-side definitions above).
-/

/-- Every message of a list paired with its successor, if any. -/
def withSuccessor : List CompletionMessage → List (CompletionMessage × Option CompletionMessage)
  | [] => []
  | [m] => [(m, none)]
  | m :: next :: rest => (m, some next) :: withSuccessor (next :: rest)

/-- The spec's demotion condition: the message is the last of the list, or
its successor is neither system- nor user-role. -/
def demoteCond (succ : Option CompletionMessage) : Bool :=
  match succ with
  | none => true
  | some n => decide (n.role ≠ roleSystem ∧ n.role ≠ roleUser)

/-- The spec's description of the non-merged messages: each message in
order, system messages meeting the demotion condition demoted to user role,
merged system messages removed. -/
def keptSpec (msgs : List CompletionMessage) : List CompletionMessage :=
  (withSuccessor msgs).filterMap fun p =>
    if p.1.role = roleSystem then
      if demoteCond p.2 then some { p.1 with role := roleUser } else none
    else some p.1

/-- The spec's description of the merged system prompts: the texts, in
order, of the system messages that do not meet the demotion condition. -/
def mergedSpec (msgs : List CompletionMessage) : List String :=
  (withSuccessor msgs).filterMap fun p =>
    if p.1.role = roleSystem ∧ demoteCond p.2 = false then some (headText p.1) else none

/-- The merged system-prompt list of a request: the default internal prompt
unless disabled, then the collected system texts. -/
def promptList (request : CompletionRequest) : List String :=
  (if request.internalSystemPrompt.getD true then [InternalSystemPrompt] else [])
    ++ (systemSplit request.messages).1

/-- Exclusivity of a message's content parts: each part carries free text or
a tool-call reference, never both. -/
def ExclusiveMsg (m : CompletionMessage) : Prop :=
  ∀ p ∈ m.content, p.text = "" ∨ p.toolCall = none

/-- A tool-call fragment is benign for a content-part list when its resolved
target index lies beyond the list or addresses a tool-call part. -/
def okFrag (parts : List ContentPart) (t : ToolCall) : Prop :=
  (parts[t.index.getD 0]?).all (fun p => p.toolCall.isSome) = true

/-- The tool-call fragments carried by a chunk's first choice. -/
def fragmentsOf (r : ChatCompletionStreamResponse) : List ToolCall :=
  match r.choices.head? with
  | none => []
  | some choice => choice.delta.toolCalls

/-- Two wire tool calls that agree except possibly on their ids. -/
def tcEqExceptId (t1 t2 : ToolCall) : Prop :=
  t1.index = t2.index ∧ t1.type = t2.type ∧ t1.function = t2.function

/-- Two wire messages that agree except possibly on pre-existing tool-call
ids (the message-level tool-call-id field and the ids nested inside the
message's tool calls). -/
def msgEqExceptToolIds (m1 m2 : ChatCompletionMessage) : Prop :=
  m1.role = m2.role ∧ m1.content = m2.content ∧ m1.multiContent = m2.multiContent
    ∧ m1.name = m2.name ∧ List.Forall₂ tcEqExceptId m1.toolCalls m2.toolCalls

/-- Two wire requests that are identical except for pre-existing tool-call
ids on their input messages. -/
def reqEqExceptToolIds (r1 r2 : ChatCompletionRequest) : Prop :=
  r1.model = r2.model ∧ r1.maxTokens = r2.maxTokens ∧ r1.temperature = r2.temperature
    ∧ r1.responseFormat = r2.responseFormat ∧ r1.tools = r2.tools ∧ r1.user = r2.user
    ∧ r1.seed = r2.seed ∧ r1.stream = r2.stream
    ∧ List.Forall₂ msgEqExceptToolIds r1.messages r2.messages

/-- The Partial waiting-placeholder status the live path emits first. -/
def waitingStatus (id : String) : CompletionStatus :=
  .progress id
    { role := roleAssistant, content := Text "Waiting for model response...", toolCall := none }

/-- The per-chunk Partial statuses of the live path, each reflecting the
message folded so far. -/
def partialsFor (id : String) (chunks : List ChatCompletionStreamResponse) :
    List CompletionStatus :=
  (List.range chunks.length).map fun k => .progress id (foldChunks (chunks.take (k + 1)))

/-- A lookup on the store after `Call` succeeded on the live path. -/
def cacheMissLookup (c : Client) (ctx : Ctx) (mr : CompletionRequest) (cs : CacheStore) : Prop :=
  ctx.noCache = false ∧ (defaultedRequest c mr).cache ≠ some false ∧ cs.getErr = none
    ∧ cs.entries.lookup (c.cacheKey (requestWithSeed c mr)) = none

/-- A message already holding tool-call slots 0 and 1. -/
def mC3 : CompletionMessage :=
  { role := roleAssistant, content := [placeholderPart 0, placeholderPart 1], toolCall := none }

/-- A fragment citing tool-call index 3. -/
def tC3 : ToolCall := mkTc (some 3) "" "f" "a"

/-- The completed tool call a fragment leaves in a freshly created slot. -/
def populatedCall (idx : Nat) (t : ToolCall) : CompletionToolCall :=
  { index := some idx, id := t.id,
    function := { name := t.function.name, arguments := t.function.arguments } }

/-- The content part a tool-call fragment leaves in a freshly created slot:
position recorded, the fragment's id, name and arguments taken whole. -/
def populatedSlot (idx : Nat) (t : ToolCall) : ContentPart :=
  { text := "", toolCall := some (populatedCall idx t) }

/-- Id removal on one wire tool call. -/
def stripTcId (t : ToolCall) : ToolCall :=
  { t with id := "" }

/-- Id removal on one wire message, as `Client.seed` performs it. -/
def stripMsg (m : ChatCompletionMessage) : ChatCompletionMessage :=
  { m with toolCallID := "", toolCalls := m.toolCalls.map stripTcId }

/-- A concrete client for the cache-key separation example. -/
def clC7 : Client :=
  { defaultModel := "m", invalidAuth := false, cacheKeyBase := "kb", setSeed := true,
    user := "u" }

/-- A wire message carrying one tool call with the given ids. -/
def msgC7 (callId tcId : String) : ChatCompletionMessage :=
  { role := roleAssistant, content := "", multiContent := [], name := "",
    toolCallID := callId, toolCalls := [mkTc (some 0) tcId "f" "a"] }

/-- A wire request around one message, used with differing tool-call ids. -/
def reqC7 (callId tcId : String) : ChatCompletionRequest :=
  { model := "m", messages := [msgC7 callId tcId], maxTokens := 0, temperature := some 0,
    responseFormat := none, tools := [], user := "u", seed := none, stream := false }

/-- A failing store used by the cache-read-error witness. -/
def csGetErr : CacheStore := { entries := [], getErr := some "boom", storeErr := none }

/-- A request with caching explicitly disabled per-request. -/
def mrNoCache : CompletionRequest := { mrEx with cache := some false }

instance (m : CompletionMessage) : Decidable (ExclusiveMsg m) := by
  unfold ExclusiveMsg
  infer_instance

instance (parts : List ContentPart) (t : ToolCall) : Decidable (okFrag parts t) := by
  unfold okFrag
  infer_instance

/-!
Helper lemmas.
-/

/-- The modelled default-prompt substitution never alters the text. -/
theorem applyDefaultPromptRemap_id (s : String) : applyDefaultPromptRemap s = s := by
  unfold applyDefaultPromptRemap IsDefaultPrompt
  split
  · rename_i h
    split at h
    · cases h; rfl
    · cases h
  · rfl

/-- Closed form of the gap-filling loop: the original parts followed by one
placeholder per missing position, in order. -/
theorem growTo_eq (idx : Nat) : ∀ parts : List ContentPart,
    growTo parts idx
      = parts ++ (List.range (idx + 1 - parts.length)).map
          (fun j => placeholderPart (parts.length + j)) := by
  have main : ∀ n : Nat, ∀ parts : List ContentPart, idx + 1 - parts.length = n →
      growTo parts idx
        = parts ++ (List.range n).map (fun j => placeholderPart (parts.length + j)) := by
    intro n
    induction n with
    | zero =>
      intro parts h
      rw [growTo]
      have hge : ¬ parts.length < idx + 1 := by omega
      simp [hge]
    | succ n ih =>
      intro parts h
      rw [growTo]
      have hlt : parts.length < idx + 1 := by omega
      rw [if_pos hlt, ih (parts ++ [placeholderPart parts.length]) (by simp; omega)]
      have hfun : (fun j => placeholderPart ((parts ++ [placeholderPart parts.length]).length + j))
          = fun j => placeholderPart (parts.length + (j + 1)) := by
        funext j
        congr 1
        simp
        omega
      rw [hfun, List.range_succ_eq_map]
      simp [List.map_map, Function.comp_def]
  intro parts
  exact main (idx + 1 - parts.length) parts rfl

/-- Setting an element past the first list of an append. -/
theorem set_append_right' (l1 l2 : List α) (k : Nat) (a : α) :
    (l1 ++ l2).set (l1.length + k) a = l1 ++ l2.set k a := by
  induction l1 with
  | nil => simp
  | cons x xs ih => simp [List.set, Nat.succ_add, ih]

/-- The per-chunk Partial statuses are the folds of the chunk prefixes. -/
theorem streamStatuses_eq (id : String) :
    ∀ (chunks : List ChatCompletionStreamResponse) (acc : CompletionMessage),
      streamStatuses id acc chunks
        = (List.range chunks.length).map
            (fun k => .progress id ((chunks.take (k + 1)).foldl appendMessage acc)) := by
  intro chunks
  induction chunks with
  | nil => intro acc; rfl
  | cons ch rest ih =>
    intro acc
    rw [streamStatuses, ih (appendMessage acc ch)]
    rw [List.length_cons, List.range_succ_eq_map]
    simp [List.map_map, Function.comp_def, List.take_succ_cons]

/-- The live-path statuses in terms of the waiting placeholder and the
prefix folds. -/
theorem streamStatuses_partialsFor (id : String) (chunks : List ChatCompletionStreamResponse) :
    streamStatuses id emptyMessage chunks = partialsFor id chunks := by
  rw [streamStatuses_eq id chunks emptyMessage]
  rfl

/-- One-step unfolding of the system split on two or more messages. -/
theorem systemSplit_cons_cons (m next : CompletionMessage) (rest' : List CompletionMessage) :
    systemSplit (m :: next :: rest')
      = if m.role = roleSystem then
          (if next.role ≠ roleSystem ∧ next.role ≠ roleUser then
            ((systemSplit (next :: rest')).1,
              { m with role := roleUser } :: (systemSplit (next :: rest')).2)
          else (headText m :: (systemSplit (next :: rest')).1, (systemSplit (next :: rest')).2))
        else ((systemSplit (next :: rest')).1, m :: (systemSplit (next :: rest')).2) := rfl

/-- The source system split agrees with the spec-side description: prompts
are the texts of the non-demoted system messages, the kept messages are the
originals with demotion applied and merged messages removed. -/
theorem systemSplit_spec : ∀ msgs : List CompletionMessage,
    systemSplit msgs = (mergedSpec msgs, keptSpec msgs) := by
  intro msgs
  induction msgs with
  | nil => rfl
  | cons m rest ih =>
    cases rest with
    | nil =>
      by_cases hr : m.role = roleSystem <;>
        simp [systemSplit, withSuccessor, keptSpec, mergedSpec, demoteCond, hr]
    | cons next rest' =>
      rw [systemSplit_cons_cons, ih]
      by_cases hr : m.role = roleSystem <;>
        by_cases h1 : next.role = roleSystem <;>
          by_cases h2 : next.role = roleUser <;>
            simp [keptSpec, mergedSpec, withSuccessor, demoteCond, hr, h1, h2]

/-- Compilation of a message holding a single text part: dropped on the two
sentinels, otherwise sent through the scalar content field. -/
theorem compileMsg_textMsg (role t : String) :
    compileMsg (mkMsg role t)
      = if t = "" then some (scalarMsg role "")
        else if t = "." ∨ t = "{}" then none
        else some (scalarMsg role t) := by
  by_cases ht : t = ""
  · simp [compileMsg, buildChatMessage, buildStep, mkMsg, Text, scalarMsg, ht]
  · by_cases hs : t = "." ∨ t = "{}" <;>
      simp [compileMsg, buildChatMessage, buildStep, mkMsg, Text, scalarMsg, partTypeText, ht, hs,
        applyDefaultPromptRemap_id]

/-- When any system prompt was collected, the compiled list starts with a
single system message whose scalar content is the newline join of the
collected prompts. -/
theorem toMessages_head (request : CompletionRequest)
    (hne : promptList request ≠ [])
    (h1 : String.intercalate "\n" (promptList request) ≠ ".")
    (h2 : String.intercalate "\n" (promptList request) ≠ "{}") :
    (toMessages request).head?
      = some (scalarMsg roleSystem (String.intercalate "\n" (promptList request))) := by
  have hlen : (promptList request).length > 0 := List.length_pos.mpr hne
  have hmk : ({ role := roleSystem, content := Text (String.intercalate "\n" (promptList request)), toolCall := none } : CompletionMessage) = mkMsg roleSystem (String.intercalate "\n" (promptList request)) := rfl
  unfold toMessages
  dsimp only
  rw [show (if request.internalSystemPrompt.getD true = true then [InternalSystemPrompt] else [])
        ++ (systemSplit request.messages).1 = promptList request from rfl]
  rw [if_pos hlen, hmk, List.filterMap_cons, compileMsg_textMsg]
  by_cases hj : String.intercalate "\n" (promptList request) = ""
  · rw [if_pos hj, hj]
    rfl
  · rw [if_neg hj, if_neg (by simp [h1, h2])]
    rfl

/-!
Claim theorems.
-/

/-- C1. Compilation merges the system-role messages whose successor is a
system or user message (the consecutive leading block in particular) into a
single leading system message whose scalar content newline-joins the default
internal system prompt (unless explicitly disabled) with their texts, and
demotes to user role any system message that is last or whose successor is
neither system- nor user-role; in particular the request
`[user:"hi", system:"be terse"]` compiles with the trailing system message
carrying role user. -/
theorem c1_system_coalescing_demotion :
    (∀ msgs : List CompletionMessage, systemSplit msgs = (mergedSpec msgs, keptSpec msgs))
    ∧ (∀ request : CompletionRequest,
        promptList request ≠ [] →
        String.intercalate "\n" (promptList request) ≠ "." →
        String.intercalate "\n" (promptList request) ≠ "{}" →
        (toMessages request).head?
          = some (scalarMsg roleSystem (String.intercalate "\n" (promptList request))))
    ∧ toMessages exReqC1
        = [scalarMsg roleSystem InternalSystemPrompt,
           scalarMsg roleUser "hi", scalarMsg roleUser "be terse"] := by
  refine ⟨systemSplit_spec, fun request hne h1 h2 => toMessages_head request hne h1 h2, ?_⟩
  decide

/-- Witness for C1: the head property applied to the example request — its
compiled list starts with the single merged system message. -/
theorem c1_system_coalescing_demotion_witness :
    (toMessages exReqC1).head?
      = some (scalarMsg roleSystem (String.intercalate "\n" (promptList exReqC1))) :=
  c1_system_coalescing_demotion.2.1 exReqC1 (by decide) (by decide) (by decide)

/-- Every multi-content part the build step adds carries the text type tag. -/
theorem buildStep_types (b : ChatCompletionMessage) (c : ContentPart)
    (hb : ∀ q ∈ b.multiContent, q.type = partTypeText) :
    ∀ q ∈ (buildStep b c).multiContent, q.type = partTypeText := by
  intro q hq
  unfold buildStep at hq
  cases hc : c.toolCall <;> by_cases ht : c.text = "" <;>
    simp [hc, ht] at hq <;>
    first
      | exact hb q hq
      | (rcases hq with hq | hq
         · exact hb q hq
         · rw [hq])

/-- Every multi-content part of a folded build carries the text type tag. -/
theorem buildFold_types : ∀ (cs : List ContentPart) (b : ChatCompletionMessage),
    (∀ q ∈ b.multiContent, q.type = partTypeText) →
    ∀ q ∈ (cs.foldl buildStep b).multiContent, q.type = partTypeText := by
  intro cs
  induction cs with
  | nil => intro b hb; simpa using hb
  | cons c cs ih => intro b hb; exact ih _ (buildStep_types b c hb)

/-- Every multi-content part of a built message carries the text type tag. -/
theorem buildChatMessage_types (m : CompletionMessage) :
    ∀ q ∈ (buildChatMessage m).multiContent, q.type = partTypeText := by
  unfold buildChatMessage
  dsimp only
  apply buildFold_types
  cases hm : m.toolCall <;> simp [hm]

/-- C9. A compiled message collapsing to the single text `"."` or `"\x7b\x7d"`
is omitted from the compiled message list entirely; a message collapsing to
any other single text part is sent through the scalar content field with an
empty multi-part array. In particular the example request whose second
message's sole content is the placeholder text compiles to a list without
it. -/
theorem c9_sentinel_collapse :
    (∀ (m : CompletionMessage) (p : ChatMessagePart),
      (buildChatMessage m).multiContent = [p] →
      p.text = "." ∨ p.text = "{}" →
      compileMsg m = none)
    ∧ (∀ (m : CompletionMessage) (p : ChatMessagePart),
        (buildChatMessage m).multiContent = [p] →
        p.text ≠ "." → p.text ≠ "{}" →
        compileMsg m = some { buildChatMessage m with content := p.text, multiContent := [] })
    ∧ toMessages exReqC9 = [scalarMsg roleUser "hi"] := by
  refine ⟨?_, ?_, ?_⟩
  · intro m p hmc hsent
    have ht : p.type = partTypeText :=
      buildChatMessage_types m p (hmc ▸ List.mem_singleton.mpr rfl)
    unfold compileMsg
    dsimp only
    rw [hmc]
    dsimp only
    rw [if_pos ht, if_pos hsent]
  · intro m p hmc h1 h2
    have ht : p.type = partTypeText :=
      buildChatMessage_types m p (hmc ▸ List.mem_singleton.mpr rfl)
    unfold compileMsg
    dsimp only
    rw [hmc]
    dsimp only
    rw [if_pos ht, if_neg (by simp [h1, h2]), applyDefaultPromptRemap_id]
  · decide

/-- Witness for C9: the scalar-collapse branch applied to a concrete
message holding the single text `"ok"`. -/
theorem c9_sentinel_collapse_witness :
    compileMsg (mkMsg roleUser "ok")
      = some { buildChatMessage (mkMsg roleUser "ok") with content := "ok", multiContent := [] } :=
  c9_sentinel_collapse.2.1 (mkMsg roleUser "ok")
    { type := partTypeText, text := "ok" } (by decide) (by decide) (by decide)

/-- Override of an empty left value yields the right value. -/
theorem override_empty (r : String) : override "" r = r := by
  unfold override
  split <;> simp_all

/-- Element lookup right after a prefix of known length. -/
theorem getElem?_append_length (l1 : List α) (a : α) (l2 : List α) :
    (l1 ++ a :: l2)[l1.length]? = some a := by
  induction l1 with
  | nil => simp
  | cons x xs ih => simpa using ih

/-- `getD` of the element appended after a prefix. -/
theorem getD_append_length (pre : List α) (a d : α) :
    (pre ++ [a]).getD pre.length d = a := by
  rw [List.getD_eq_getElem?_getD, getElem?_append_length]
  rfl

/-- `set` of the element appended after a prefix. -/
theorem set_at_append_length (pre : List α) (a b : α) :
    (pre ++ [a]).set pre.length b = pre ++ [b] := by
  simp

/-- A fragment whose resolved index lies beyond the current list grows the
list with placeholders for every missing position, in order, and populates
the final slot from the fragment. -/
theorem applyToolFragment_gap (msg : CompletionMessage) (t : ToolCall) (i : Nat)
    (hi : t.index.getD 0 = i) (h : msg.content.length ≤ i) :
    (applyToolFragment msg t).content
      = (msg.content
          ++ (List.range (i - msg.content.length)).map
              (fun j => placeholderPart (msg.content.length + j)))
        ++ [populatedSlot i t] := by
  have hgrow : growTo msg.content i
      = (msg.content
          ++ (List.range (i - msg.content.length)).map
              (fun j => placeholderPart (msg.content.length + j)))
        ++ [placeholderPart i] := by
    rw [growTo_eq]
    rw [show i + 1 - msg.content.length = (i - msg.content.length) + 1 from by omega]
    rw [List.range_succ]
    simp only [List.map_append, List.map_cons, List.map_nil]
    rw [show msg.content.length + (i - msg.content.length) = i from by omega]
    simp [List.append_assoc]
  unfold applyToolFragment
  dsimp only
  rw [hi, hgrow]
  have hprelen : (msg.content
      ++ (List.range (i - msg.content.length)).map
          (fun j => placeholderPart (msg.content.length + j))).length = i := by
    simp
    omega
  generalize hpre : msg.content
      ++ (List.range (i - msg.content.length)).map
          (fun j => placeholderPart (msg.content.length + j)) = pre at hprelen ⊢
  rw [← hprelen, getD_append_length, set_at_append_length]
  dsimp [placeholderPart, populatedSlot, populatedCall]
  cases hti : t.index with
  | none =>
    rw [hti] at hi
    simp at hi
    rw [override_empty]
  | some j =>
    rw [hti] at hi
    simp at hi
    rw [override_empty]
    simp [hprelen, hi]

/-- Equality of completion messages from equality of their fields. -/
theorem completionMessage_eq {a b : CompletionMessage}
    (h1 : a.role = b.role) (h2 : a.content = b.content) (h3 : a.toolCall = b.toolCall) :
    a = b := by
  cases a
  cases b
  simp_all

/-- C3. A tool-call fragment whose resolved target index (explicit index if
present, else 0) does not yet exist grows the content-part list with empty
tool-call placeholders, in order, until the index exists, and populates that
slot; in particular a fragment citing index 3 over slots 0–1 creates
placeholders 2 and 3 and then populates slot 3. -/
theorem c3_gap_filling :
    (∀ (msg : CompletionMessage) (t : ToolCall),
      msg.content.length ≤ t.index.getD 0 →
      (applyToolFragment msg t).content
        = (msg.content
            ++ (List.range (t.index.getD 0 - msg.content.length)).map
                (fun j => placeholderPart (msg.content.length + j)))
          ++ [populatedSlot (t.index.getD 0) t])
    ∧ appendMessage mC3 (chunkTool 3 "" "f" "a")
        = { role := roleAssistant,
            content := [placeholderPart 0, placeholderPart 1, placeholderPart 2,
              populatedSlot 3 tC3],
            toolCall := none } := by
  have hgen : ∀ (msg : CompletionMessage) (t : ToolCall),
      msg.content.length ≤ t.index.getD 0 →
      (applyToolFragment msg t).content
        = (msg.content
            ++ (List.range (t.index.getD 0 - msg.content.length)).map
                (fun j => placeholderPart (msg.content.length + j)))
          ++ [populatedSlot (t.index.getD 0) t] :=
    fun msg t h => applyToolFragment_gap msg t (t.index.getD 0) rfl h
  refine ⟨hgen, ?_⟩
  have hred : appendMessage mC3 (chunkTool 3 "" "f" "a") = applyToolFragment mC3 tC3 := rfl
  rw [hred]
  refine completionMessage_eq rfl ?_ rfl
  rw [hgen mC3 tC3 (by decide)]
  decide

/-- Witness for C3: the gap-filling equation applied to the fragment citing
index 3 over slots 0–1. -/
theorem c3_gap_filling_witness :
    (applyToolFragment mC3 tC3).content
      = (mC3.content
          ++ (List.range (tC3.index.getD 0 - mC3.content.length)).map
              (fun j => placeholderPart (mC3.content.length + j)))
        ++ [populatedSlot (tC3.index.getD 0) tC3] :=
  c3_gap_filling.1 mC3 tC3 (by decide)

/-- The gap-filling loop does nothing when the target index already exists. -/
theorem growTo_of_lt (parts : List ContentPart) (idx : Nat) (h : idx < parts.length) :
    growTo parts idx = parts := by
  rw [growTo_eq, show idx + 1 - parts.length = 0 from by omega]
  simp

/-- Length of the gap-filled list. -/
theorem growTo_length (parts : List ContentPart) (idx : Nat) :
    (growTo parts idx).length = max parts.length (idx + 1) := by
  rw [growTo_eq]
  simp
  omega

/-- Element lookup in the gap-filled list. -/
theorem growTo_getElem? (parts : List ContentPart) (idx i : Nat) :
    (growTo parts idx)[i]?
      = if i < parts.length then parts[i]?
        else if i < max parts.length (idx + 1) then some (placeholderPart i)
        else none := by
  rw [growTo_eq, List.getElem?_append]
  by_cases h1 : i < parts.length
  · simp [h1]
  · rw [if_neg h1, if_neg h1, List.getElem?_map]
    by_cases h2 : i < max parts.length (idx + 1)
    · rw [if_pos h2]
      have hr : i - parts.length < idx + 1 - parts.length := by omega
      rw [List.getElem?_range hr]
      simp
      congr 1
      omega
    · rw [if_neg h2]
      have hr : idx + 1 - parts.length ≤ i - parts.length := by omega
      rw [List.getElem?_eq_none (by simpa using hr)]
      rfl

/-- Every element of the list a tool-call fragment produces is the old
element at that position, or carries a tool call. -/
theorem applyToolFragment_getElem (msg : CompletionMessage) (t : ToolCall) (i : Nat) :
    ((applyToolFragment msg t).content)[i]? = none
    ∨ ((applyToolFragment msg t).content)[i]? = msg.content[i]?
    ∨ ∃ q, ((applyToolFragment msg t).content)[i]? = some q ∧ q.toolCall.isSome = true := by
  unfold applyToolFragment
  dsimp only
  by_cases hi : t.index.getD 0 = i
  · rw [hi]
    right; right
    refine ⟨_, List.getElem?_set_eq_of_lt _ ?_, rfl⟩
    rw [growTo_length]
    omega
  · rw [List.getElem?_set_ne hi, growTo_getElem?]
    by_cases h1 : i < msg.content.length
    · right; left
      rw [if_pos h1]
    · rw [if_neg h1]
      by_cases h2 : i < max msg.content.length (t.index.getD 0 + 1)
      · right; right
        exact ⟨_, if_pos h2, rfl⟩
      · left
        exact if_neg h2

/-- The fragment application preserves benignity of any other fragment. -/
theorem applyToolFragment_okFrag (msg : CompletionMessage) (t t' : ToolCall)
    (hok : okFrag msg.content t') : okFrag (applyToolFragment msg t).content t' := by
  unfold okFrag at hok ⊢
  rcases applyToolFragment_getElem msg t (t'.index.getD 0) with h | h | ⟨q, h, hq⟩
  · rw [h]; rfl
  · rw [h]; exact hok
  · rw [h]
    simpa using hq

/-- Membership in the gap-filled list. -/
theorem growTo_mem (parts : List ContentPart) (idx : Nat) :
    ∀ p ∈ growTo parts idx, p ∈ parts ∨ ∃ j, p = placeholderPart j := by
  rw [growTo_eq]
  intro p hp
  rcases List.mem_append.mp hp with h | h
  · exact Or.inl h
  · rcases List.mem_map.mp h with ⟨j, _, rfl⟩
    exact Or.inr ⟨_, rfl⟩

/-- A benign tool-call fragment preserves content-part exclusivity. -/
theorem applyToolFragment_exclusive (msg : CompletionMessage) (t : ToolCall)
    (hex : ExclusiveMsg msg) (hok : okFrag msg.content t) :
    ExclusiveMsg (applyToolFragment msg t) := by
  have htext : ((growTo msg.content (t.index.getD 0)).getD (t.index.getD 0)
      { text := "", toolCall := none }).text = "" := by
    rw [List.getD_eq_getElem?_getD, growTo_getElem?]
    by_cases h1 : t.index.getD 0 < msg.content.length
    · rw [if_pos h1]
      unfold okFrag at hok
      cases hq : msg.content[t.index.getD 0]? with
      | none => rfl
      | some q =>
        rw [hq] at hok
        have hqs : q.toolCall.isSome = true := by simpa using hok
        have hqm : q ∈ msg.content := List.getElem?_mem hq
        rcases hex q hqm with h | h
        · simpa using h
        · rw [h] at hqs
          cases hqs
    · rw [if_neg h1, if_pos (by omega)]
      rfl
  unfold applyToolFragment
  dsimp only
  intro p hp
  rcases List.mem_or_eq_of_mem_set hp with hmem | heq
  · rcases growTo_mem _ _ p hmem with h | ⟨j, rfl⟩
    · exact hex p h
    · exact Or.inl rfl
  · rw [heq]
    exact Or.inl htext

/-- The text application preserves content-part exclusivity. -/
theorem applyText_exclusive (msg : CompletionMessage) (t : String)
    (hex : ExclusiveMsg msg) : ExclusiveMsg (applyText msg t) := by
  unfold applyText
  cases hf : firstTextSlot msg.content with
  | some i =>
    intro p hp
    rcases List.mem_or_eq_of_mem_set hp with hmem | heq
    · exact hex p hmem
    · rw [heq]
      exact Or.inr rfl
  | none =>
    intro p hp
    rcases List.mem_append.mp hp with h | h
    · exact hex p h
    · rw [List.mem_singleton.mp h]
      exact Or.inr rfl

/-- Folding benign tool-call fragments preserves content-part exclusivity. -/
theorem foldFragments_exclusive : ∀ (frags : List ToolCall) (m : CompletionMessage),
    ExclusiveMsg m → (∀ t ∈ frags, okFrag m.content t) →
    ExclusiveMsg (frags.foldl applyToolFragment m) := by
  intro frags
  induction frags with
  | nil => intro m hex _; exact hex
  | cons t ts ih =>
    intro m hex hok
    refine ih (applyToolFragment m t)
      (applyToolFragment_exclusive m t hex (hok t (List.mem_cons_self t ts))) ?_
    intro t' ht'
    exact applyToolFragment_okFrag m t t' (hok t' (List.mem_cons_of_mem t ht'))

/-- C2 counterexample. Folding a text delta and then a tool-call fragment
citing index 0 yields a content part carrying both text and a tool call, so
exclusivity does not hold for every order of deltas. -/
theorem c2_exclusivity_cex :
    ¬ ExclusiveMsg (foldChunks [chunkText "4", chunkTool 0 "x" "f" "a"]) := by
  have hred : foldChunks [chunkText "4", chunkTool 0 "x" "f" "a"]
      = applyToolFragment
          { role := roleAssistant, content := [{ text := "4", toolCall := none }],
            toolCall := none }
          (mkTc (some 0) "x" "f" "a") := rfl
  have hval : applyToolFragment
      { role := roleAssistant, content := [{ text := "4", toolCall := none }],
        toolCall := none }
      (mkTc (some 0) "x" "f" "a")
      = { role := roleAssistant,
          content := [{ text := "4", toolCall := some (populatedCall 0 (mkTc (some 0) "x" "f" "a")) }],
          toolCall := none } := by
    unfold applyToolFragment mkTc
    dsimp only
    rw [growTo_of_lt _ _ (by decide)]
    decide
  rw [hred, hval]
  decide

/-- C2 (amended). Content-part exclusivity — each part carries free text or
a tool-call reference, never both — is preserved by every fold step in which
each tool-call fragment's resolved target index lies beyond the current
content list or addresses an existing tool-call part; the counterexample
shows it is not preserved when a fragment targets an index holding a text
part. -/
theorem c2_exclusivity_amended (msg : CompletionMessage) (r : ChatCompletionStreamResponse)
    (hex : ExclusiveMsg msg) (hok : ∀ t ∈ fragmentsOf r, okFrag msg.content t) :
    ExclusiveMsg (appendMessage msg r) := by
  unfold appendMessage
  unfold fragmentsOf at hok
  cases hc : r.choices.head? with
  | none => exact hex
  | some choice =>
    rw [hc] at hok
    dsimp only
    have hex' : ExclusiveMsg { msg with role := override msg.role choice.delta.role } := hex
    have hfold := foldFragments_exclusive choice.delta.toolCalls
      { msg with role := override msg.role choice.delta.role } hex' hok
    by_cases ht : choice.delta.content ≠ ""
    · rw [if_pos ht]
      exact applyText_exclusive _ _ hfold
    · rw [if_neg ht]
      exact hfold

/-- Witness for C2: a fold step whose fragment targets an existing tool-call
slot keeps exclusivity. -/
theorem c2_exclusivity_amended_witness :
    ExclusiveMsg (appendMessage mC3 (chunkTool 0 "y" "g" "b")) :=
  c2_exclusivity_amended mC3 (chunkTool 0 "y" "g" "b") (by decide) (by decide)

/-- The seed normalisation is the per-message id removal. -/
theorem stripToolIds_as_map (r : ChatCompletionRequest) :
    stripToolIds r = { r with messages := r.messages.map stripMsg } := rfl

/-- Tool calls identical except for ids agree after id stripping. -/
theorem stripTcId_eq (t1 t2 : ToolCall) (h : tcEqExceptId t1 t2) :
    stripTcId t1 = stripTcId t2 := by
  obtain ⟨hidx, htype, hfun⟩ := h
  unfold stripTcId
  cases t1
  cases t2
  simp_all

/-- Tool-call lists identical except for ids agree after id stripping. -/
theorem mapStripTc_eq : ∀ (l1 l2 : List ToolCall), List.Forall₂ tcEqExceptId l1 l2 →
    l1.map stripTcId = l2.map stripTcId := by
  intro l1 l2 h
  induction h with
  | nil => rfl
  | cons hp _ ih => simp [List.map_cons, ih, stripTcId_eq _ _ hp]

/-- Messages identical except for tool-call ids agree after id stripping. -/
theorem stripMsg_eq (m1 m2 : ChatCompletionMessage) (h : msgEqExceptToolIds m1 m2) :
    stripMsg m1 = stripMsg m2 := by
  obtain ⟨hrole, hcontent, hmulti, hname, htc⟩ := h
  have hmap := mapStripTc_eq _ _ htc
  unfold stripMsg
  cases m1
  cases m2
  simp_all

/-- Message lists identical except for tool-call ids agree after stripping. -/
theorem mapStripMsg_eq : ∀ (l1 l2 : List ChatCompletionMessage),
    List.Forall₂ msgEqExceptToolIds l1 l2 → l1.map stripMsg = l2.map stripMsg := by
  intro l1 l2 h
  induction h with
  | nil => rfl
  | cons hp _ ih => simp [List.map_cons, ih, stripMsg_eq _ _ hp]

/-- Requests identical except for tool-call ids strip to the same request. -/
theorem stripToolIds_eq_of_rel (r1 r2 : ChatCompletionRequest)
    (h : reqEqExceptToolIds r1 r2) : stripToolIds r1 = stripToolIds r2 := by
  obtain ⟨hm, hmax, htemp, hresp, htools, huser, hseed, hstream, hmsgs⟩ := h
  have hmap := mapStripMsg_eq _ _ hmsgs
  rw [stripToolIds_as_map, stripToolIds_as_map]
  cases r1
  cases r2
  simp_all

/-- C7. Two wire requests identical except for pre-existing tool-call ids on
their input messages (the message-level tool-call-id field and the ids
nested inside each message's tool calls) get the same seed, because the seed
derivation strips those ids; the cache-key derivation does not strip them,
so the same two requests may produce different cache keys — witnessed by a
concrete pair. -/
theorem c7_seed_key_independence :
    (∀ (c : Client) (r1 r2 : ChatCompletionRequest),
      reqEqExceptToolIds r1 r2 → c.seed r1 = c.seed r2)
    ∧ reqEqExceptToolIds (reqC7 "idA" "tcA") (reqC7 "idB" "tcB")
    ∧ clC7.cacheKey (reqC7 "idA" "tcA") ≠ clC7.cacheKey (reqC7 "idB" "tcB") := by
  refine ⟨?_, ?_, ?_⟩
  · intro c r1 r2 h
    unfold Client.seed
    rw [stripToolIds_eq_of_rel r1 r2 h]
  · refine ⟨rfl, rfl, rfl, rfl, rfl, rfl, rfl, rfl, ?_⟩
    refine List.Forall₂.cons ?_ List.Forall₂.nil
    exact ⟨rfl, rfl, rfl, rfl, List.Forall₂.cons ⟨rfl, rfl, rfl⟩ List.Forall₂.nil⟩
  · decide

/-- Witness for C7: the seed equality applied to the concrete pair. -/
theorem c7_seed_key_independence_witness :
    clC7.seed (reqC7 "idA" "tcA") = clC7.seed (reqC7 "idB" "tcB") :=
  c7_seed_key_independence.1 clC7 (reqC7 "idA" "tcA") (reqC7 "idB" "tcB")
    c7_seed_key_independence.2.1

/-- A cache lookup hitting a failing store surfaces the error. -/
theorem fromCache_getErr (c : Client) (ctx : Ctx) (mr' : CompletionRequest)
    (cs : CacheStore) (r : ChatCompletionRequest) (e : String)
    (h3 : ctx.noCache = false) (h4 : mr'.cache ≠ some false) (h5 : cs.getErr = some e) :
    Client.fromCache c ctx mr' cs r = .error e := by
  unfold Client.fromCache
  rw [h3]
  simp only [Bool.false_eq_true, if_false]
  rw [if_neg h4, h5]

/-- C6. A cache `Get` error during lookup is returned to the caller; the
live call is never attempted (zero transport invocations), even though it
might have succeeded. -/
theorem c6_cache_get_error (c : Client) (ctx : Ctx) (mr : CompletionRequest) (cs : CacheStore)
    (id : String) (sr : StreamOutcome) (e : String)
    (h1 : c.invalidAuth = false)
    (h2 : (compiledRequest c mr).messages.isEmpty = false)
    (h3 : ctx.noCache = false)
    (h4 : (defaultedRequest c mr).cache ≠ some false)
    (h5 : cs.getErr = some e) :
    Client.Call c ctx mr cs id sr
      = { statuses := [.submitted id (compiledRequest c mr)], outcome := .error e,
          cacheOut := cs, transportCalls := 0 } := by
  unfold Client.Call
  rw [h1]
  simp only [Bool.false_eq_true, if_false]
  rw [h2]
  simp only [Bool.false_eq_true, if_false]
  rw [fromCache_getErr c ctx (defaultedRequest c mr) cs (requestWithSeed c mr) e h3 h4 h5]

/-- Witness for C6: with a failing `Get`, the call returns the store's error
without touching the transport. -/
theorem c6_cache_get_error_witness :
    Client.Call clEx ctxEx mrEx csGetErr "1" (.ok ([chunkText "4"], none))
      = { statuses := [.submitted "1" (compiledRequest clEx mrEx)], outcome := .error "boom",
          cacheOut := csGetErr, transportCalls := 0 } :=
  c6_cache_get_error clEx ctxEx mrEx csGetErr "1" (.ok ([chunkText "4"], none)) "boom"
    rfl (by decide) rfl (by decide) rfl

/-- C5. A mid-stream failure fails the call with that error: the emitted
statuses stop at the per-chunk Partials (no Final), nothing is written to
the cache store, and the transport is invoked exactly once (no retry). -/
theorem c5_midstream_failure (c : Client) (ctx : Ctx) (mr : CompletionRequest)
    (cs : CacheStore) (id : String) (chunks : List ChatCompletionStreamResponse) (e : String)
    (h1 : c.invalidAuth = false)
    (h2 : (compiledRequest c mr).messages.isEmpty = false)
    (hfc : Client.fromCache c ctx (defaultedRequest c mr) cs (requestWithSeed c mr) = .ok none) :
    Client.Call c ctx mr cs id (.ok (chunks, some e))
      = { statuses := .submitted id (compiledRequest c mr)
            :: waitingStatus id :: partialsFor id chunks,
          outcome := .error e, cacheOut := cs, transportCalls := 1 } := by
  unfold Client.Call
  rw [h1]
  simp only [Bool.false_eq_true, if_false]
  rw [h2]
  simp only [Bool.false_eq_true, if_false]
  rw [hfc]
  unfold Client.call
  dsimp only
  rw [streamStatuses_partialsFor]
  rfl

/-- Witness for C5: a concrete stream failing after one chunk. -/
theorem c5_midstream_failure_witness :
    Client.Call clEx ctxEx mrEx csEx "1" (.ok ([chunkText "4"], some "mid"))
      = { statuses := .submitted "1" (compiledRequest clEx mrEx)
            :: waitingStatus "1" :: partialsFor "1" [chunkText "4"],
          outcome := .error "mid", cacheOut := csEx, transportCalls := 1 } :=
  c5_midstream_failure clEx ctxEx mrEx csEx "1" [chunkText "4"] "mid"
    rfl (by decide) (by decide)

/-- C10. With caching disabled per-request but not on the context, the
lookup is skipped for every store state — the `Get` fault switch is never
consulted — yet the live call's chunk sequence is still written to the
store: the store path consults only the context-level flag. -/
theorem c10_per_request_flag_store (c : Client) (ctx : Ctx) (mr : CompletionRequest)
    (cs : CacheStore) (id : String) (chunks : List ChatCompletionStreamResponse)
    (h1 : c.invalidAuth = false)
    (h2 : (compiledRequest c mr).messages.isEmpty = false)
    (h3 : ctx.noCache = false)
    (h4 : mr.cache = some false)
    (h5 : cs.storeErr = none) :
    (∀ cs' : CacheStore,
      Client.fromCache c ctx (defaultedRequest c mr) cs' (requestWithSeed c mr) = .ok none)
    ∧ (Client.Call c ctx mr cs id (.ok (chunks, none))).outcome
        = .ok (backfillIds (foldChunks chunks))
    ∧ (Client.Call c ctx mr cs id (.ok (chunks, none))).transportCalls = 1
    ∧ (Client.Call c ctx mr cs id (.ok (chunks, none))).cacheOut.entries
        = (c.cacheKey (requestWithSeed c mr), chunks) :: cs.entries := by
  have hdc : (defaultedRequest c mr).cache = some false := by
    unfold defaultedRequest
    split <;> exact h4
  have hskip : ∀ cs' : CacheStore,
      Client.fromCache c ctx (defaultedRequest c mr) cs' (requestWithSeed c mr) = .ok none := by
    intro cs'
    unfold Client.fromCache
    rw [h3]
    simp only [Bool.false_eq_true, if_false]
    rw [if_pos hdc]
  have hstore : Client.store c ctx cs (c.cacheKey (requestWithSeed c mr)) chunks
      = .ok { cs with entries := (c.cacheKey (requestWithSeed c mr), chunks) :: cs.entries } := by
    unfold Client.store
    rw [h3]
    simp only [Bool.false_eq_true, if_false]
    rw [h5]
  have hcall : Client.Call c ctx mr cs id (.ok (chunks, none))
      = { statuses := .submitted id (compiledRequest c mr)
            :: waitingStatus id :: partialsFor id chunks
            ++ [.final id chunks (backfillIds (foldChunks chunks)) false],
          outcome := .ok (backfillIds (foldChunks chunks)),
          cacheOut := { cs with entries := (c.cacheKey (requestWithSeed c mr), chunks) :: cs.entries },
          transportCalls := 1 } := by
    unfold Client.Call
    rw [h1]
    simp only [Bool.false_eq_true, if_false]
    rw [h2]
    simp only [Bool.false_eq_true, if_false]
    rw [hskip cs]
    unfold Client.call
    dsimp only
    rw [hstore]
    dsimp only
    rw [streamStatuses_partialsFor]
    rfl
  exact ⟨hskip, by rw [hcall], by rw [hcall], by rw [hcall]⟩

/-- Witness for C10: even with a failing `Get` switch in the store, the call
succeeds and the chunk sequence is written. -/
theorem c10_per_request_flag_store_witness :
    (∀ cs' : CacheStore,
      Client.fromCache clEx ctxEx (defaultedRequest clEx mrNoCache) cs'
        (requestWithSeed clEx mrNoCache) = .ok none)
    ∧ (Client.Call clEx ctxEx mrNoCache csGetErr "1" (.ok ([chunkText "4"], none))).outcome
        = .ok (backfillIds (foldChunks [chunkText "4"]))
    ∧ (Client.Call clEx ctxEx mrNoCache csGetErr "1" (.ok ([chunkText "4"], none))).transportCalls = 1
    ∧ (Client.Call clEx ctxEx mrNoCache csGetErr "1" (.ok ([chunkText "4"], none))).cacheOut.entries
        = (clEx.cacheKey (requestWithSeed clEx mrNoCache), [chunkText "4"]) :: csGetErr.entries :=
  c10_per_request_flag_store clEx ctxEx mrNoCache csGetErr "1" [chunkText "4"]
    rfl (by decide) rfl rfl rfl

/-- Pointwise description of the backfill: the part is unchanged unless it
holds a tool call with an empty id, which receives the deterministic id. -/
theorem backfillIds_spec (fm : CompletionMessage) (i : Nat) (part : ContentPart)
    (hp : fm.content[i]? = some part) :
    (∀ tc, part.toolCall = some tc → tc.id = "" →
      (backfillIds fm).content[i]?
        = some { part with toolCall := some { tc with
            id := "call_" ++ (hashID [tc.function.name, tc.function.arguments]).take 8 } })
    ∧ (∀ tc, part.toolCall = some tc → tc.id ≠ "" → (backfillIds fm).content[i]? = some part)
    ∧ (part.toolCall = none → (backfillIds fm).content[i]? = some part) := by
  unfold backfillIds
  dsimp only
  rw [List.getElem?_map, hp]
  refine ⟨?_, ?_, ?_⟩
  · intro tc htc hid
    simp [backfillPart, htc, hid]
  · intro tc htc hid
    simp [backfillPart, htc, hid]
  · intro htc
    simp [backfillPart, htc]

/-- The backfill keeps the number of content parts. -/
theorem backfillIds_length (fm : CompletionMessage) :
    (backfillIds fm).content.length = fm.content.length := by
  unfold backfillIds
  simp

/-- C8. Every successful call's returned message is the fold of the chunk
sequence with the id backfill applied — on the replay and live paths alike —
and the Final status carries exactly that message: every tool call whose id
was still empty after folding is assigned the fixed tag `call_` plus the
first eight characters of the content hash of its name and arguments, and
every other part is returned unchanged. -/
theorem c8_toolcall_id_backfill (c : Client) (ctx : Ctx) (mr : CompletionRequest)
    (cs : CacheStore) (id : String) (sr : StreamOutcome) (msg : CompletionMessage)
    (h : (Client.Call c ctx mr cs id sr).outcome = .ok msg) :
    ∃ chunks cached,
      (Client.Call c ctx mr cs id sr).statuses.getLast?
        = some (.final id chunks msg cached)
      ∧ msg = backfillIds (foldChunks chunks)
      ∧ msg.content.length = (foldChunks chunks).content.length
      ∧ ∀ (i : Nat) (part : ContentPart), (foldChunks chunks).content[i]? = some part →
          (∀ tc, part.toolCall = some tc → tc.id = "" →
            msg.content[i]?
              = some { part with toolCall := some { tc with
                  id := "call_" ++ (hashID [tc.function.name, tc.function.arguments]).take 8 } })
          ∧ (∀ tc, part.toolCall = some tc → tc.id ≠ "" → msg.content[i]? = some part)
          ∧ (part.toolCall = none → msg.content[i]? = some part) := by
  have main : ∃ chunks cached,
      (Client.Call c ctx mr cs id sr).statuses.getLast?
        = some (.final id chunks msg cached) ∧ msg = backfillIds (foldChunks chunks) := by
    unfold Client.Call at h ⊢
    by_cases hauth : c.invalidAuth = true
    · rw [if_pos hauth] at h
      simp at h
    · rw [if_neg hauth] at h ⊢
      dsimp only at h ⊢
      by_cases hempty : (compiledRequest c mr).messages.isEmpty = true
      · rw [if_pos hempty] at h
        simp at h
      · rw [if_neg hempty] at h ⊢
        cases hfc : c.fromCache ctx (defaultedRequest c mr) cs (requestWithSeed c mr) with
        | error e =>
          rw [hfc] at h
          simp at h
        | ok ores =>
          cases ores with
          | some chunks =>
            rw [hfc] at h
            dsimp only at h ⊢
            simp at h
            refine ⟨chunks, true, ?_, h.symm⟩
            rw [h]
            rfl
          | none =>
            rw [hfc] at h
            dsimp only at h ⊢
            cases hcall : c.call ctx cs (requestWithSeed c mr) id sr with
            | mk sts res =>
              cases res with
              | error e =>
                rw [hcall] at h
                simp at h
              | ok pr =>
                cases pr with
                | mk chunks cs' =>
                  rw [hcall] at h
                  dsimp only at h ⊢
                  simp at h
                  refine ⟨chunks, false, ?_, h.symm⟩
                  rw [show (CompletionStatus.submitted id (compiledRequest c mr))
                        :: (sts ++ [CompletionStatus.final id chunks
                            (backfillIds (foldChunks chunks)) false])
                      = ((CompletionStatus.submitted id (compiledRequest c mr)) :: sts)
                        ++ [CompletionStatus.final id chunks
                            (backfillIds (foldChunks chunks)) false] from rfl]
                  rw [List.getLast?_concat, h]
  obtain ⟨chunks, cached, hlast, hmsg⟩ := main
  refine ⟨chunks, cached, hlast, hmsg, ?_, ?_⟩
  · rw [hmsg, backfillIds_length]
  · intro i part hp
    rw [hmsg]
    exact backfillIds_spec (foldChunks chunks) i part hp

/-- Witness for C8: the backfill description applied to a concrete
successful live call. -/
theorem c8_toolcall_id_backfill_witness :
    ∃ chunks cached,
      (Client.Call clEx ctxEx mrEx csEx "1" (.ok ([chunkText "4"], none))).statuses.getLast?
        = some (.final "1" chunks (backfillIds (foldChunks [chunkText "4"])) cached)
      ∧ backfillIds (foldChunks [chunkText "4"]) = backfillIds (foldChunks chunks)
      ∧ (backfillIds (foldChunks [chunkText "4"])).content.length
          = (foldChunks chunks).content.length
      ∧ ∀ (i : Nat) (part : ContentPart), (foldChunks chunks).content[i]? = some part →
          (∀ tc, part.toolCall = some tc → tc.id = "" →
            (backfillIds (foldChunks [chunkText "4"])).content[i]?
              = some { part with toolCall := some { tc with
                  id := "call_" ++ (hashID [tc.function.name, tc.function.arguments]).take 8 } })
          ∧ (∀ tc, part.toolCall = some tc → tc.id ≠ "" →
              (backfillIds (foldChunks [chunkText "4"])).content[i]? = some part)
          ∧ (part.toolCall = none →
              (backfillIds (foldChunks [chunkText "4"])).content[i]? = some part) :=
  c8_toolcall_id_backfill clEx ctxEx mrEx csEx "1" (.ok ([chunkText "4"], none))
    (backfillIds (foldChunks [chunkText "4"])) rfl

/-- A performed lookup that misses yields no cached chunks. -/
theorem fromCache_miss (c : Client) (ctx : Ctx) (mr : CompletionRequest) (cs : CacheStore)
    (hmiss : cacheMissLookup c ctx mr cs) :
    Client.fromCache c ctx (defaultedRequest c mr) cs (requestWithSeed c mr) = .ok none := by
  obtain ⟨h3, h4, h5, h6⟩ := hmiss
  unfold Client.fromCache
  rw [h3]
  simp only [Bool.false_eq_true, if_false]
  rw [if_neg h4, h5, h6]

/-- C4. Every successful call emits the Submitted status first, carrying the
compiled wire request; on a performed lookup that hits, the statuses are
exactly Submitted then one Final with `cached = true` and the store is left
untouched with no transport invocation; on a performed lookup that misses
with a stream reaching end-of-stream, the statuses are exactly Submitted,
the waiting Partial, one Partial per received chunk reflecting the prefix
folds, and one Final with `cached = false`, while the full chunk sequence is
stored under the request's key by the single transport invocation. -/
theorem c4_status_protocol (c : Client) (ctx : Ctx) (mr : CompletionRequest)
    (cs : CacheStore) (id : String) (sr : StreamOutcome) (msg : CompletionMessage)
    (h : (Client.Call c ctx mr cs id sr).outcome = .ok msg) :
    ((Client.Call c ctx mr cs id sr).statuses.head?
        = some (.submitted id (compiledRequest c mr)))
    ∧ (∀ chunks,
        Client.fromCache c ctx (defaultedRequest c mr) cs (requestWithSeed c mr)
          = .ok (some chunks) →
        msg = backfillIds (foldChunks chunks)
        ∧ (Client.Call c ctx mr cs id sr).statuses
            = [.submitted id (compiledRequest c mr), .final id chunks msg true]
        ∧ (Client.Call c ctx mr cs id sr).cacheOut = cs
        ∧ (Client.Call c ctx mr cs id sr).transportCalls = 0)
    ∧ (cacheMissLookup c ctx mr cs → ∀ chunks, sr = .ok (chunks, none) →
        msg = backfillIds (foldChunks chunks)
        ∧ (Client.Call c ctx mr cs id sr).statuses
            = .submitted id (compiledRequest c mr)
              :: waitingStatus id :: (partialsFor id chunks ++ [.final id chunks msg false])
        ∧ (Client.Call c ctx mr cs id sr).cacheOut.entries.lookup
            (c.cacheKey (requestWithSeed c mr)) = some chunks
        ∧ (Client.Call c ctx mr cs id sr).transportCalls = 1) := by
  by_cases hauth : c.invalidAuth = true
  · rw [show (Client.Call c ctx mr cs id sr)
        = { statuses := [], outcome := .error authErrMsg, cacheOut := cs, transportCalls := 0 }
      from by unfold Client.Call; rw [if_pos hauth]] at h
    simp at h
  by_cases hempty : (compiledRequest c mr).messages.isEmpty = true
  · rw [show (Client.Call c ctx mr cs id sr)
        = { statuses := [], outcome := .error noMessagesErrMsg, cacheOut := cs, transportCalls := 0 }
      from by unfold Client.Call; rw [if_neg hauth]; dsimp only; rw [if_pos hempty]] at h
    simp at h
  refine ⟨?_, ?_, ?_⟩
  · -- the Submitted status comes first on every successful path
    unfold Client.Call at h ⊢
    rw [if_neg hauth] at h ⊢
    dsimp only at h ⊢
    rw [if_neg hempty] at h ⊢
    cases hfc : c.fromCache ctx (defaultedRequest c mr) cs (requestWithSeed c mr) with
    | error e =>
      rw [hfc] at h
      simp at h
    | ok ores =>
      cases ores with
      | some chunks => rfl
      | none =>
        cases hcall : c.call ctx cs (requestWithSeed c mr) id sr with
        | mk sts res =>
          cases res with
          | error e =>
            rw [hfc, hcall] at h
            simp at h
          | ok pr =>
            cases pr with
            | mk chunks cs' => rfl
  · -- replay path
    intro chunks hfc
    unfold Client.Call at h ⊢
    rw [if_neg hauth] at h ⊢
    dsimp only at h ⊢
    rw [if_neg hempty] at h ⊢
    rw [hfc] at h ⊢
    dsimp only at h ⊢
    simp at h
    exact ⟨h.symm, by rw [h], rfl, rfl⟩
  · -- live path
    intro hmiss chunks hsr
    have hfc := fromCache_miss c ctx mr cs hmiss
    subst hsr
    unfold Client.Call at h ⊢
    rw [if_neg hauth] at h ⊢
    dsimp only at h ⊢
    rw [if_neg hempty] at h ⊢
    rw [hfc] at h ⊢
    dsimp only at h ⊢
    unfold Client.call at h ⊢
    dsimp only at h ⊢
    cases hst : cs.storeErr with
    | some e =>
      have hstore : Client.store c ctx cs (c.cacheKey (requestWithSeed c mr)) chunks
          = .error e := by
        unfold Client.store
        rw [hmiss.1]
        simp only [Bool.false_eq_true, if_false]
        rw [hst]
      rw [hstore] at h
      simp at h
    | none =>
      have hstore : Client.store c ctx cs (c.cacheKey (requestWithSeed c mr)) chunks
          = .ok { cs with entries := (c.cacheKey (requestWithSeed c mr), chunks) :: cs.entries } := by
        unfold Client.store
        rw [hmiss.1]
        simp only [Bool.false_eq_true, if_false]
        rw [hst]
      rw [hstore] at h ⊢
      dsimp only at h ⊢
      simp at h
      refine ⟨h.symm, ?_, ?_, rfl⟩
      · rw [streamStatuses_partialsFor, h]
        rfl
      · simp [List.lookup]

/-- Witness for C4: the live-path status protocol applied to a concrete
cache miss with a one-chunk stream. -/
theorem c4_status_protocol_witness :
    backfillIds (foldChunks [chunkText "4"]) = backfillIds (foldChunks [chunkText "4"])
    ∧ (Client.Call clEx ctxEx mrEx csEx "1" (.ok ([chunkText "4"], none))).statuses
        = .submitted "1" (compiledRequest clEx mrEx)
          :: waitingStatus "1" :: (partialsFor "1" [chunkText "4"]
            ++ [.final "1" [chunkText "4"] (backfillIds (foldChunks [chunkText "4"])) false])
    ∧ (Client.Call clEx ctxEx mrEx csEx "1" (.ok ([chunkText "4"], none))).cacheOut.entries.lookup
        (clEx.cacheKey (requestWithSeed clEx mrEx)) = some [chunkText "4"]
    ∧ (Client.Call clEx ctxEx mrEx csEx "1" (.ok ([chunkText "4"], none))).transportCalls = 1 :=
  (c4_status_protocol clEx ctxEx mrEx csEx "1" (.ok ([chunkText "4"], none))
    (backfillIds (foldChunks [chunkText "4"])) rfl).2.2
    ⟨rfl, by decide, rfl, rfl⟩ [chunkText "4"] rfl
